import Mathlib

/-!
Verification development for the thumbpro generation service
(`src/services/geminiService.ts` and the earlier iterations of the same
module kept in the repository).  The TypeScript code is shallowly embedded:
JavaScript strings become `String`, `undefined`-able fields become `Option`,
thrown errors become `Except String`, and the nondeterministic backend is
modelled as a function from the invocation index to the outcome of that
invocation.  Delays awaited via `wait(ms)` are recorded in an explicit trace
list, as are the invocations themselves, so that claims about retry counts
and delays can be stated.
-/

namespace ThumbPro

/-! ## String utilities

JavaScript `String.prototype.includes` and occurrence counting, modelled on
`List Char`.  `countSubL p s` counts the positions of `s` at which `p`
occurs as a substring. -/

/-- Number of positions of `s` at which `p` occurs as a substring. -/
def countSubL (p : List Char) : List Char → Nat
  | [] => if p = [] then 1 else 0
  | c :: rest => (if p.isPrefixOf (c :: rest) then 1 else 0) + countSubL p rest

/-- Membership of `p` in `s` as a substring, as JavaScript `includes`. -/
def containsSubL (p : List Char) : List Char → Bool
  | [] => p.isEmpty
  | c :: rest => p.isPrefixOf (c :: rest) || containsSubL p rest

/-- String wrapper for `containsSubL`, models JavaScript `s.includes(p)`. -/
def containsStr (p s : String) : Bool := containsSubL p.data s.data

/-- String wrapper for `countSubL`. -/
def countStr (p s : String) : Nat := countSubL p.data s.data

/-- Models JavaScript `s.startsWith(pre)`. -/
def startsWithStr (pre s : String) : Bool := pre.data.isPrefixOf s.data

/-- No occurrence of `p` can straddle the border from some left list into
`b`: no proper nonempty suffix of `p` is a prefix of `b`. -/
def noCrossR (p b : List Char) : Bool :=
  (List.range p.length).all (fun i => i == 0 || !((p.drop i).isPrefixOf b))

/-- No occurrence of `p` can straddle the border out of `a` into some right
list: no proper nonempty prefix of `p` is a suffix of `a`. -/
def noCrossL (p a : List Char) : Bool :=
  (List.range p.length).all (fun i => i == 0 || !((p.take i).isSuffixOf a))

theorem countSubL_nil (p : List Char) (hp : p ≠ []) : countSubL p [] = 0 := by
  simp [countSubL, hp]

theorem countSubL_cons (p : List Char) (c : Char) (rest : List Char) :
    countSubL p (c :: rest)
      = (if p.isPrefixOf (c :: rest) then 1 else 0) + countSubL p rest := rfl

theorem prefix_append_cases (p a0 b : List Char)
    (hnot : ¬ p <+: a0) (hpb : p <+: a0 ++ b) :
    a0.length < p.length ∧ p.take a0.length = a0 ∧ p.drop a0.length <+: b := by
  rcases Nat.lt_or_ge a0.length p.length with hlt | hge
  · obtain ⟨t, ht⟩ := hpb
    have htake : p.take a0.length = a0 := by
      have h1 : (p ++ t).take a0.length = p.take a0.length :=
        List.take_append_of_le_length (Nat.le_of_lt hlt)
      have h2 : (a0 ++ b).take a0.length = a0 := List.take_left a0 b
      rw [ht] at h1
      rw [h1] at h2
      exact h2
    refine ⟨hlt, htake, ?_⟩
    have hsplit : p = a0 ++ p.drop a0.length := by
      conv_lhs => rw [← List.take_append_drop a0.length p]
      rw [htake]
    rw [hsplit, List.append_assoc] at ht
    have hb : p.drop a0.length ++ t = b := List.append_cancel_left ht
    exact ⟨t, hb⟩
  · exfalso
    apply hnot
    have hEq : p = (a0 ++ b).take p.length := List.prefix_iff_eq_take.mp hpb
    rw [List.take_append_of_le_length hge] at hEq
    rw [hEq]
    exact List.take_prefix _ _

theorem countSubL_append_of_noCrossR (p b : List Char) (hp : p ≠ [])
    (h : noCrossR p b = true) :
    ∀ a, countSubL p (a ++ b) = countSubL p a + countSubL p b := by
  intro a
  induction a with
  | nil => simp [countSubL_nil p hp]
  | cons c a' ih =>
    have hpref : p.isPrefixOf (c :: a' ++ b) = p.isPrefixOf (c :: a') := by
      by_cases hca : p.isPrefixOf (c :: a') = true
      · rw [hca]
        rw [List.isPrefixOf_iff_prefix] at hca ⊢
        exact hca.trans (List.prefix_append _ _)
      · rw [Bool.not_eq_true] at hca
        rw [hca]
        rw [Bool.eq_false_iff]
        intro habs
        rw [List.isPrefixOf_iff_prefix] at habs
        have hnot : ¬ p <+: c :: a' := by
          intro hx
          rw [← List.isPrefixOf_iff_prefix] at hx
          rw [hca] at hx
          exact Bool.false_ne_true hx
        obtain ⟨hlen, _, hdrop⟩ :=
          prefix_append_cases p (c :: a') b hnot (by simpa using habs)
        have hmem : (c :: a').length ∈ List.range p.length :=
          List.mem_range.mpr hlen
        have := List.all_eq_true.mp h _ hmem
        simp only [Bool.or_eq_true, beq_iff_eq, Bool.not_eq_true'] at this
        rcases this with h0 | hfalse
        · simp at h0
        · rw [← List.isPrefixOf_iff_prefix] at hdrop
          rw [hfalse] at hdrop
          exact Bool.false_ne_true hdrop
    calc countSubL p (c :: a' ++ b)
        = (if p.isPrefixOf (c :: a' ++ b) then 1 else 0) + countSubL p (a' ++ b) :=
          countSubL_cons p c (a' ++ b)
      _ = (if p.isPrefixOf (c :: a') then 1 else 0) + (countSubL p a' + countSubL p b) := by
          rw [hpref, ih]
      _ = countSubL p (c :: a') + countSubL p b := by
          rw [countSubL_cons]
          omega

theorem countSubL_append_of_noCrossL (p : List Char) (hp : p ≠ []) :
    ∀ a, noCrossL p a = true →
      ∀ b, countSubL p (a ++ b) = countSubL p a + countSubL p b := by
  intro a
  induction a with
  | nil => intro _ b; simp [countSubL_nil p hp]
  | cons c a' ih =>
    intro h b
    have h' : noCrossL p a' = true := by
      rw [noCrossL, List.all_eq_true] at h ⊢
      intro i hi
      have := h i hi
      simp only [Bool.or_eq_true, beq_iff_eq, Bool.not_eq_true'] at this ⊢
      rcases this with h0 | hfalse
      · exact Or.inl h0
      · refine Or.inr ?_
        rw [Bool.eq_false_iff]
        intro habs
        rw [List.isSuffixOf_iff_suffix] at habs
        have : (p.take i).isSuffixOf (c :: a') = true := by
          rw [List.isSuffixOf_iff_suffix]
          exact habs.trans (List.suffix_cons c a')
        rw [hfalse] at this
        exact Bool.false_ne_true this
    have hpref : p.isPrefixOf (c :: a' ++ b) = p.isPrefixOf (c :: a') := by
      by_cases hca : p.isPrefixOf (c :: a') = true
      · rw [hca]
        rw [List.isPrefixOf_iff_prefix] at hca ⊢
        exact hca.trans (List.prefix_append _ _)
      · rw [Bool.not_eq_true] at hca
        rw [hca]
        rw [Bool.eq_false_iff]
        intro habs
        rw [List.isPrefixOf_iff_prefix] at habs
        have hnot : ¬ p <+: c :: a' := by
          intro hx
          rw [← List.isPrefixOf_iff_prefix] at hx
          rw [hca] at hx
          exact Bool.false_ne_true hx
        obtain ⟨hlen, htake, _⟩ :=
          prefix_append_cases p (c :: a') b hnot (by simpa using habs)
        have hmem : (c :: a').length ∈ List.range p.length :=
          List.mem_range.mpr hlen
        have hcross := List.all_eq_true.mp h _ hmem
        simp only [Bool.or_eq_true, beq_iff_eq, Bool.not_eq_true'] at hcross
        rcases hcross with h0 | hfalse
        · simp at h0
        · have : (p.take (c :: a').length).isSuffixOf (c :: a') = true := by
            rw [htake, List.isSuffixOf_iff_suffix]
          rw [hfalse] at this
          exact Bool.false_ne_true this
    calc countSubL p (c :: a' ++ b)
        = (if p.isPrefixOf (c :: a' ++ b) then 1 else 0) + countSubL p (a' ++ b) :=
          countSubL_cons p c (a' ++ b)
      _ = (if p.isPrefixOf (c :: a') then 1 else 0) + (countSubL p a' + countSubL p b) := by
          rw [hpref, ih h' b]
      _ = countSubL p (c :: a') + countSubL p b := by
          rw [countSubL_cons]
          omega

theorem countSubL_around (p : List Char) (hp : p ≠ []) (X Y : List Char)
    (hX : noCrossL p X = true) (hY : noCrossR p Y = true) (s : List Char) :
    countSubL p (X ++ (s ++ Y)) = countSubL p X + countSubL p s + countSubL p Y := by
  rw [countSubL_append_of_noCrossL p hp X hX (s ++ Y)]
  rw [countSubL_append_of_noCrossR p Y hp hY s]
  omega

/-! ## Prompt composition

The composed outbound prompts of the several iterations of the service.
Each definition copies the corresponding template literal of the source,
with its literal newlines and indentation. -/

/-- The aspect ratio values offered by the UI (`ASPECT_RATIOS` in the app
component). -/
def validAspectRatios : List String := ["16:9", "9:16", "1:1", "4:3", "3:4"]

/-- Prompt composed by `generateImageWithText` in the flash-image variant of
`src/services/geminiService.ts` (line 25). -/
def enhancedPromptFlash (prompt ratio : String) : String :=
  "Create a high quality YouTube Thumbnail. Aspect Ratio: " ++ ratio
    ++ ". Description: " ++ prompt ++ ". Vivid colors, 4k resolution."

/-- Prompt composed by `generateImageWithReference` in the flash-image
variant of `src/services/geminiService.ts` (lines 113-119). -/
def editingPromptFlash (prompt ratio : String) : String :=
  "\n                Create a YouTube Thumbnail.\n                Reference Image provided.\n                User Instructions: "
    ++ prompt
    ++ "\n                Output Aspect Ratio: " ++ ratio
    ++ "\n                Style: High quality, vivid, clickbait style.\n            "

/-- Prompt sent by the Imagen variant of `generateImageWithText`
(`src/services/geminiService.ts` lines 227-236): the user prompt is passed
through unchanged, and the aspect ratio travels only in the structured
`config` object, not in the prompt string. -/
def imagenTextPrompt (prompt : String) : String := prompt

/-- Prompt composed by `generateImageWithText` in `src/unnamed/part_002`
(line 25). -/
def enhancedPromptP2 (prompt ratio : String) : String :=
  prompt ++ ". The image should be in " ++ ratio
    ++ " aspect ratio. High quality YouTube Thumbnail, vivid colors."

theorem countStr_template (A M B : String) (r : String) (hp : r.data ≠ [])
    (hX : noCrossL r.data ((A ++ r) ++ M).data = true)
    (hY : noCrossR r.data B.data = true)
    (hc1 : countSubL r.data ((A ++ r) ++ M).data = 1)
    (hc0 : countSubL r.data B.data = 0) (prompt : String) :
    countStr r ((((A ++ r) ++ M) ++ prompt) ++ B) = 1 + countStr r prompt := by
  have key := countSubL_around r.data hp ((A ++ r) ++ M).data B.data hX hY prompt.data
  show countSubL r.data (((((A ++ r) ++ M) ++ prompt) ++ B)).data
      = 1 + countSubL r.data prompt.data
  have hdata : (((((A ++ r) ++ M) ++ prompt) ++ B)).data
      = ((A ++ r) ++ M).data ++ (prompt.data ++ B.data) := by
    simp only [String.data_append, List.append_assoc]
  rw [hdata, key, hc1, hc0]
  omega

theorem countStr_template_suffix (D1 D2 : String) (r : String) (hp : r.data ≠ [])
    (hY : noCrossR r.data (D1.data ++ (r.data ++ D2.data)) = true)
    (hc1 : countSubL r.data (D1.data ++ (r.data ++ D2.data)) = 1) (prompt : String) :
    countStr r (((prompt ++ D1) ++ r) ++ D2) = 1 + countStr r prompt := by
  show countSubL r.data ((((prompt ++ D1) ++ r) ++ D2)).data
      = 1 + countSubL r.data prompt.data
  have hdata : ((((prompt ++ D1) ++ r) ++ D2)).data
      = prompt.data ++ (D1.data ++ (r.data ++ D2.data)) := by
    simp only [String.data_append, List.append_assoc]
  rw [hdata, countSubL_append_of_noCrossR r.data _ hp hY prompt.data, hc1]
  omega

theorem countStr_template_mid (C1 C2a C2b : String) (r : String) (hp : r.data ≠ [])
    (hL : noCrossL r.data C1.data = true)
    (hc0 : countSubL r.data C1.data = 0)
    (hY : noCrossR r.data (C2a.data ++ (r.data ++ C2b.data)) = true)
    (hc1 : countSubL r.data (C2a.data ++ (r.data ++ C2b.data)) = 1) (prompt : String) :
    countStr r ((((C1 ++ prompt) ++ C2a) ++ r) ++ C2b) = 1 + countStr r prompt := by
  show countSubL r.data (((((C1 ++ prompt) ++ C2a) ++ r) ++ C2b)).data
      = 1 + countSubL r.data prompt.data
  have hdata : (((((C1 ++ prompt) ++ C2a) ++ r) ++ C2b)).data
      = C1.data ++ (prompt.data ++ (C2a.data ++ (r.data ++ C2b.data))) := by
    simp only [String.data_append, List.append_assoc]
  rw [hdata, countSubL_append_of_noCrossL r.data hp C1.data hL _,
    countSubL_append_of_noCrossR r.data _ hp hY prompt.data, hc0, hc1]
  omega

/-! ## Claim C3: aspect-ratio occurrence in composed prompts -/

set_option maxRecDepth 8192

/-- C3 counterexample: the claim "the outbound prompt string composed by
`generateImageWithText` ... contains the literal aspect-ratio value exactly
once" fails on the code.  The Imagen variant of `generateImageWithText`
(`src/services/geminiService.ts` lines 227-236) sends the raw user prompt,
so for the valid ratio `16:9` and the prompt `a cat astronaut` the outbound
prompt contains the ratio zero times; and in the flash variant a user prompt
that itself contains the ratio yields two occurrences. -/
theorem c3_counterexample :
    ("16:9" ∈ validAspectRatios)
    ∧ countStr "16:9" (imagenTextPrompt "a cat astronaut") = 0
    ∧ countStr "16:9" (enhancedPromptFlash "a 16:9 cat astronaut" "16:9") = 2 :=
  ⟨by decide, by decide, by decide⟩

/-- C3 (amended): for every valid aspect-ratio value and every user prompt,
the prompts composed by the flash-image variants of `generateImageWithText`
(geminiService line 25), `generateImageWithReference` (geminiService lines
113-119) and `generateImageWithText` of part_002 (line 25) contain the
aspect-ratio literal exactly one more time than the user prompt does (hence
exactly once whenever the user prompt does not contain it), while the
Imagen variant of `generateImageWithText` omits it from the prompt string
(it contains the ratio exactly as often as the user prompt does; the ratio
travels in the structured config instead). -/
theorem c3_prompt_ratio_occurrence_amended :
    ∀ r ∈ validAspectRatios, ∀ prompt : String,
      countStr r (enhancedPromptFlash prompt r) = 1 + countStr r prompt
      ∧ countStr r (editingPromptFlash prompt r) = 1 + countStr r prompt
      ∧ countStr r (enhancedPromptP2 prompt r) = 1 + countStr r prompt
      ∧ countStr r (imagenTextPrompt prompt) = countStr r prompt := by
  intro r hr prompt
  have hall1 : validAspectRatios.all (fun rr =>
      (rr.data != [])
      && noCrossL rr.data (("Create a high quality YouTube Thumbnail. Aspect Ratio: " ++ rr) ++ ". Description: ").data
      && (countSubL rr.data (("Create a high quality YouTube Thumbnail. Aspect Ratio: " ++ rr) ++ ". Description: ").data == 1)
      && noCrossR rr.data ". Vivid colors, 4k resolution.".data
      && (countSubL rr.data ". Vivid colors, 4k resolution.".data == 0)) = true := by
    decide
  have hall2 : validAspectRatios.all (fun rr =>
      noCrossL rr.data "\n                Create a YouTube Thumbnail.\n                Reference Image provided.\n                User Instructions: ".data
      && (countSubL rr.data "\n                Create a YouTube Thumbnail.\n                Reference Image provided.\n                User Instructions: ".data == 0)
      && noCrossR rr.data ("\n                Output Aspect Ratio: ".data ++ (rr.data ++ "\n                Style: High quality, vivid, clickbait style.\n            ".data))
      && (countSubL rr.data ("\n                Output Aspect Ratio: ".data ++ (rr.data ++ "\n                Style: High quality, vivid, clickbait style.\n            ".data)) == 1)) = true := by
    decide
  have hall3 : validAspectRatios.all (fun rr =>
      noCrossR rr.data (". The image should be in ".data ++ (rr.data ++ " aspect ratio. High quality YouTube Thumbnail, vivid colors.".data))
      && (countSubL rr.data (". The image should be in ".data ++ (rr.data ++ " aspect ratio. High quality YouTube Thumbnail, vivid colors.".data)) == 1)) = true := by
    decide
  have h1 := List.all_eq_true.mp hall1 r hr
  have h2 := List.all_eq_true.mp hall2 r hr
  have h3 := List.all_eq_true.mp hall3 r hr
  simp only [Bool.and_eq_true, beq_iff_eq, bne_iff_ne] at h1 h2 h3
  obtain ⟨⟨⟨⟨hp, hX1⟩, hc1⟩, hY1⟩, hc0⟩ := h1
  obtain ⟨⟨⟨hL2, hd2⟩, hY2⟩, hc2⟩ := h2
  obtain ⟨hY3, hc3⟩ := h3
  refine ⟨?_, ?_, ?_, rfl⟩
  · exact countStr_template "Create a high quality YouTube Thumbnail. Aspect Ratio: "
      ". Description: " ". Vivid colors, 4k resolution." r hp hX1 hY1 hc1 hc0 prompt
  · exact countStr_template_mid
      "\n                Create a YouTube Thumbnail.\n                Reference Image provided.\n                User Instructions: "
      "\n                Output Aspect Ratio: "
      "\n                Style: High quality, vivid, clickbait style.\n            "
      r hp hL2 hd2 hY2 hc2 prompt
  · exact countStr_template_suffix ". The image should be in "
      " aspect ratio. High quality YouTube Thumbnail, vivid colors." r hp hY3 hc3 prompt

/-- C3 witness: the amended occurrence counts evaluated at the concrete
ratio `16:9` and the prompt `a cat`. -/
theorem c3_amended_witness :
    ("16:9" ∈ validAspectRatios)
    ∧ (countStr "16:9" (enhancedPromptFlash "a cat" "16:9") = 1 + countStr "16:9" "a cat"
      ∧ countStr "16:9" (editingPromptFlash "a cat" "16:9") = 1 + countStr "16:9" "a cat"
      ∧ countStr "16:9" (enhancedPromptP2 "a cat" "16:9") = 1 + countStr "16:9" "a cat"
      ∧ countStr "16:9" (imagenTextPrompt "a cat") = countStr "16:9" "a cat") :=
  ⟨by decide, c3_prompt_ratio_occurrence_amended "16:9" (by decide) "a cat"⟩

/-! ## Backend response shape and the response normalizers

The `@google/genai` response is embedded structurally: fields that can be
`undefined` in JavaScript become `Option`.  A JavaScript `parts` value that
is an empty array is truthy, so it is modelled as `some []`, distinct from
an absent `parts` (`none`): the source treats the two differently. -/

structure InlineData where
  data : String
  mimeType : String
deriving DecidableEq, Repr

structure ContentPart where
  inlineData : Option InlineData
  text : Option String
deriving DecidableEq, Repr

structure Content where
  parts : Option (List ContentPart)
deriving DecidableEq, Repr

structure Candidate where
  content : Option Content
  finishReason : Option String
deriving DecidableEq, Repr

structure GenResponse where
  candidates : Option (List Candidate)
deriving DecidableEq, Repr

/-- The parts list of the first candidate, when every link of the chain
`response.candidates?.[0].content.parts` is present. -/
def candidateParts (r : GenResponse) : Option (List ContentPart) :=
  ((r.candidates.bind List.head?).bind Candidate.content).bind Content.parts

/-- The finish reasons treated as safety blocks by `extractImageFromCandidate`
in `src/unnamed/part_001` (line 20). -/
def safetyReasons : List String := ["SAFETY", "BLOCK", "PROHIBITED_CONTENT"]

def msgBlockedP1 : String :=
  "A imagem foi bloqueada pelo filtro de segurança. Tente um prompt mais leve."

def msgInterruptedP1 (fr : String) : String := "Geração interrompida: " ++ fr

def msgNoContentP1 : String := "A API não retornou conteúdo válido."

def msgNoImageP1 : String := "Nenhuma imagem foi encontrada na resposta da IA."

def msgEmptyDataFlash : String := "Os dados da imagem recebidos estão vazios."

/-- One step of the extraction loop of `extractImageFromCandidate`
(part_001 lines 28-32): a part yields an image exactly when it has inline
data whose declared MIME type begins with the image prefix. -/
def partImage (p : ContentPart) : Option String :=
  match p.inlineData with
  | some idata => if startsWithStr "image/" idata.mimeType then some idata.data else none
  | none => none

/-- One step of the extraction loop of the flash-image variants
(`src/services/geminiService.ts` lines 48-53, part_002 lines 52-57): a part
is taken exactly when it has inline data with a nonempty payload; the MIME
type is not consulted. -/
def partInline (p : ContentPart) : Option String :=
  match p.inlineData with
  | some idata => if idata.data != "" then some idata.data else none
  | none => none

/-- The `for ... of parts` loop: first part on which `f` fires. -/
def firstHit (f : ContentPart → Option String) : List ContentPart → Option String
  | [] => none
  | p :: rest =>
    match f p with
    | some d => some d
    | none => firstHit f rest

/-- Error text produced by the no-content branch of
`extractImageFromCandidate` (part_001 lines 18-26), including the safety
classification of the terminal status.  The JavaScript guard
`candidate?.finishReason && candidate.finishReason !== 'STOP'` requires a
truthy (present and nonempty) status differing from `STOP`. -/
def noContentErrorP1 (c : Option Candidate) : String :=
  match c with
  | some cand =>
    match cand.finishReason with
    | some fr =>
      if fr != "" && fr != "STOP" then
        if safetyReasons.contains fr then msgBlockedP1
        else msgInterruptedP1 fr
      else msgNoContentP1
    | none => msgNoContentP1
  | none => msgNoContentP1

/-- Embedding of `extractImageFromCandidate` (`src/unnamed/part_001` lines
15-35).  The terminal status is consulted only when the candidate, its
content, or its parts list is missing; when a parts list is present the
function scans it for an image part and otherwise throws the generic
no-image error. -/
def extractImageFromCandidate (r : GenResponse) : Except String String :=
  match r.candidates.bind List.head? with
  | none => .error (noContentErrorP1 none)
  | some cand =>
    match cand.content with
    | none => .error (noContentErrorP1 (some cand))
    | some content =>
      match content.parts with
      | none => .error (noContentErrorP1 (some cand))
      | some ps =>
        match firstHit partImage ps with
        | some d => .ok d
        | none => .error msgNoImageP1

/-- Embedding of the inline extraction of the flash-image
`generateImageWithText` (`src/services/geminiService.ts` lines 45-58): the
loop takes the first part with nonempty inline data, with no MIME check,
and a missing chain or no hit leaves the accumulator empty, which is then
reported as empty image data. -/
def flashExtractImage (r : GenResponse) : Except String String :=
  match candidateParts r with
  | some ps =>
    match firstHit partInline ps with
    | some d => .ok d
    | none => .error msgEmptyDataFlash
  | none => .error msgEmptyDataFlash

theorem firstHit_eq_some_iff (f : ContentPart → Option String) :
    ∀ (l : List ContentPart) (d : String),
      firstHit f l = some d
        ↔ ∃ l1 p l2, l = l1 ++ p :: l2 ∧ (∀ q ∈ l1, f q = none) ∧ f p = some d := by
  intro l
  induction l with
  | nil =>
    intro d
    constructor
    · intro h
      simp [firstHit] at h
    · rintro ⟨l1, p, l2, hsplit, -, -⟩
      exact absurd hsplit (by simp)
  | cons a rest ih =>
    intro d
    constructor
    · intro h
      rw [firstHit] at h
      cases hfa : f a with
      | some b =>
        rw [hfa] at h
        refine ⟨[], a, rest, by simp, by simp, ?_⟩
        simpa using h ▸ hfa
      | none =>
        rw [hfa] at h
        obtain ⟨l1, p, l2, hsplit, hnone, hp⟩ := (ih d).mp h
        exact ⟨a :: l1, p, l2, by simp [hsplit], by
          intro q hq
          rcases List.mem_cons.mp hq with rfl | hq'
          · exact hfa
          · exact hnone q hq', hp⟩
    · rintro ⟨l1, p, l2, hsplit, hnone, hp⟩
      cases l1 with
      | nil =>
        simp only [List.nil_append, List.cons.injEq] at hsplit
        obtain ⟨rfl, rfl⟩ := hsplit
        simp [firstHit, hp]
      | cons b l1' =>
        simp only [List.cons_append, List.cons.injEq] at hsplit
        obtain ⟨rfl, hrest⟩ := hsplit
        have hfa : f a = none := hnone a (by simp)
        rw [firstHit, hfa]
        exact (ih d).mpr ⟨l1', p, l2, hrest, fun q hq => hnone q (by simp [hq]), hp⟩

/-! ## Claim C2: safety status versus the generic no-image error -/

/-- C2 counterexample: a response with zero image parts whose first candidate
has the terminal safety status `SAFETY` but also carries a non-empty list of
non-image parts is classified by `extractImageFromCandidate` as the generic
no-image error, not as the policy-block error: the status is consulted only
when the parts list is missing. -/
theorem c2_counterexample :
    extractImageFromCandidate
        ⟨some [⟨some ⟨some [⟨none, some "blocked"⟩]⟩, some "SAFETY"⟩]⟩
      = .error msgNoImageP1
    ∧ msgNoImageP1 ≠ msgBlockedP1 :=
  ⟨rfl, by decide⟩

/-- C2 (amended): for a first candidate with a terminal safety status, the
normalizer yields the policy-block error exactly when the candidate carries
no content parts list (missing content or missing parts); when a parts list
is present and contains no image part — even a non-empty list of non-image
parts — it yields the generic no-image error instead. -/
theorem c2_policy_block_amended :
    ∀ (c : Candidate) (fr : String), c.finishReason = some fr →
      safetyReasons.contains fr = true →
      ((c.content = none →
          extractImageFromCandidate ⟨some [c]⟩ = .error msgBlockedP1)
      ∧ (∀ ct, c.content = some ct → ct.parts = none →
          extractImageFromCandidate ⟨some [c]⟩ = .error msgBlockedP1)
      ∧ (∀ ct ps, c.content = some ct → ct.parts = some ps →
          firstHit partImage ps = none →
          extractImageFromCandidate ⟨some [c]⟩ = .error msgNoImageP1)) := by
  intro c fr hfr hsafe
  have hfr' : fr = "SAFETY" ∨ fr = "BLOCK" ∨ fr = "PROHIBITED_CONTENT" := by
    simpa [safetyReasons] using hsafe
  have htruthy : (fr != "" && fr != "STOP") = true := by
    rcases hfr' with rfl | rfl | rfl <;> decide
  refine ⟨?_, ?_, ?_⟩
  · intro hct
    rcases hfr' with rfl | rfl | rfl <;>
      simp [extractImageFromCandidate, hct, noContentErrorP1, hfr, safetyReasons]
  · intro ct hct hps
    rcases hfr' with rfl | rfl | rfl <;>
      simp [extractImageFromCandidate, hct, hps, noContentErrorP1, hfr, safetyReasons]
  · intro ct ps hct hps hnone
    simp [extractImageFromCandidate, hct, hps, hnone]

/-- C2 witness: the amended statement evaluated on a candidate with missing
content and status `SAFETY`. -/
theorem c2_amended_witness :
    extractImageFromCandidate ⟨some [⟨none, some "SAFETY"⟩]⟩
      = .error msgBlockedP1 :=
  (c2_policy_block_amended ⟨none, some "SAFETY"⟩ "SAFETY" rfl (by decide)).1 rfl

/-! ## Claim C7: which part the normalizers return -/

/-- C7 counterexample: the extraction loop of the flash-image
`generateImageWithText` (`src/services/geminiService.ts` lines 47-54, also
cited by the claim) performs no MIME check and returns the data of a part
whose declared MIME type does not begin with `image/`. -/
theorem c7_counterexample :
    flashExtractImage
        ⟨some [⟨some ⟨some [⟨some ⟨"abc", "text/plain"⟩, none⟩]⟩, none⟩]⟩
      = .ok "abc"
    ∧ startsWithStr "image/" "text/plain" = false :=
  ⟨rfl, by decide⟩

/-- C7 (amended): `extractImageFromCandidate` (part_001) scans the first
candidate parts in order and returns exactly the data of the first part
whose declared MIME type begins with `image/`, never a non-image part; the
flash-image variants instead return the data of the first part with a
nonempty inline payload, regardless of its declared MIME type. -/
theorem c7_first_image_part_amended :
    ∀ (r : GenResponse) (ps : List ContentPart), candidateParts r = some ps →
      (∀ d, extractImageFromCandidate r = .ok d
        ↔ ∃ l1 p l2, ps = l1 ++ p :: l2 ∧ (∀ q ∈ l1, partImage q = none)
            ∧ partImage p = some d)
      ∧ (∀ (p : ContentPart) (d : String), partImage p = some d
        ↔ ∃ idata, p.inlineData = some idata
            ∧ startsWithStr "image/" idata.mimeType = true ∧ idata.data = d)
      ∧ (∀ d, flashExtractImage r = .ok d
        ↔ ∃ l1 p l2, ps = l1 ++ p :: l2 ∧ (∀ q ∈ l1, partInline q = none)
            ∧ partInline p = some d) := by
  intro r ps hps
  obtain ⟨cands⟩ := r
  rcases cands with _ | cs
  · simp [candidateParts] at hps
  rcases cs with _ | ⟨c, rest⟩
  · simp [candidateParts] at hps
  obtain ⟨oct, ofr⟩ := c
  rcases oct with _ | ct
  · simp [candidateParts] at hps
  obtain ⟨ops⟩ := ct
  rcases ops with _ | ps'
  · simp [candidateParts] at hps
  have hps' : ps' = ps := by simpa [candidateParts] using hps
  subst hps'
  refine ⟨?_, ?_, ?_⟩
  · intro d
    have hiff : (extractImageFromCandidate ⟨some (⟨some ⟨some ps'⟩, ofr⟩ :: rest)⟩ = .ok d)
        ↔ firstHit partImage ps' = some d := by
      cases hfh : firstHit partImage ps' with
      | some x => simp [extractImageFromCandidate, hfh]
      | none => simp [extractImageFromCandidate, hfh]
    exact hiff.trans (firstHit_eq_some_iff partImage ps' d)
  · intro p d
    constructor
    · intro h
      cases hid : p.inlineData with
      | none => simp [partImage, hid] at h
      | some idata =>
        by_cases hmime : startsWithStr "image/" idata.mimeType = true
        · refine ⟨idata, rfl, hmime, ?_⟩
          simpa [partImage, hid, hmime] using h
        · rw [Bool.not_eq_true] at hmime
          simp [partImage, hid, hmime] at h
    · rintro ⟨idata, hid, hmime, rfl⟩
      simp [partImage, hid, hmime]
  · intro d
    have hiff : (flashExtractImage ⟨some (⟨some ⟨some ps'⟩, ofr⟩ :: rest)⟩ = .ok d)
        ↔ firstHit partInline ps' = some d := by
      cases hfh : firstHit partInline ps' with
      | some x => simp [flashExtractImage, candidateParts, hfh]
      | none => simp [flashExtractImage, candidateParts, hfh]
    exact hiff.trans (firstHit_eq_some_iff partInline ps' d)

/-- C7 witness: the amended characterization evaluated on a concrete
response whose single part is an `image/png` inline payload. -/
theorem c7_amended_witness :
    (∀ d, extractImageFromCandidate
        ⟨some [⟨some ⟨some [⟨some ⟨"xyz", "image/png"⟩, none⟩]⟩, none⟩]⟩ = .ok d
      ↔ ∃ l1 p l2, [(⟨some ⟨"xyz", "image/png"⟩, none⟩ : ContentPart)] = l1 ++ p :: l2
          ∧ (∀ q ∈ l1, partImage q = none) ∧ partImage p = some d)
    ∧ (∀ (p : ContentPart) (d : String), partImage p = some d
      ↔ ∃ idata, p.inlineData = some idata
          ∧ startsWithStr "image/" idata.mimeType = true ∧ idata.data = d)
    ∧ (∀ d, flashExtractImage
        ⟨some [⟨some ⟨some [⟨some ⟨"xyz", "image/png"⟩, none⟩]⟩, none⟩]⟩ = .ok d
      ↔ ∃ l1 p l2, [(⟨some ⟨"xyz", "image/png"⟩, none⟩ : ContentPart)] = l1 ++ p :: l2
          ∧ (∀ q ∈ l1, partInline q = none) ∧ partInline p = some d) :=
  c7_first_image_part_amended
    ⟨some [⟨some ⟨some [⟨some ⟨"xyz", "image/png"⟩, none⟩]⟩, none⟩]⟩
    [⟨some ⟨"xyz", "image/png"⟩, none⟩] rfl

/-! ## Error classification -/

/-- Quota detection of the flash-image while-loop variants
(`src/services/geminiService.ts` line 63, part_002 line 67): lowercase
`quota`. -/
def isQuotaErrorFlash (msg : String) : Bool :=
  containsStr "429" msg || containsStr "RESOURCE_EXHAUSTED" msg
    || containsStr "quota" msg

/-- Quota detection of the `withRetry` wrapper (part_001 line 156,
geminiService line 207): capital `Quota`. -/
def isQuotaErrorRetry (msg : String) : Bool :=
  containsStr "429" msg || containsStr "RESOURCE_EXHAUSTED" msg
    || containsStr "Quota" msg

def msgQuotaFinalFlash : String :=
  "Muitos acessos recentes. O limite gratuito foi atingido momentaneamente. Aguarde 1 minuto e tente novamente."

def msgSafetyFlash : String :=
  "A imagem não pôde ser gerada devido aos filtros de segurança do Google. Tente mudar a descrição."

/-- Terminal error classification of the flash-image `generateImageWithText`
catch block (`src/services/geminiService.ts` lines 76-86), for errors
carrying a message. -/
def flashClassifyError (msg : String) : String :=
  if isQuotaErrorFlash msg then msgQuotaFinalFlash
  else if containsStr "safetySetting" msg || containsStr "blocked" msg then
    msgSafetyFlash
  else "Falha ao gerar imagem: " ++ msg

def msgNotFoundP1 : String :=
  "O modelo Gemini 2.0 Flash ainda não está disponível para sua chave. Tente usar o Imagen."

def msgQuotaP1 : String :=
  "Limite de requisições atingido (Quota). Aguarde alguns instantes."

/-- Error classification of the `generateImageWithText` catch block of
`src/unnamed/part_001` (lines 65-78): only the not-found and quota families
are re-classified; every other error is rethrown unmodified. -/
def p1ClassifyError (msg : String) : String :=
  if containsStr "404" msg || containsStr "not found" msg then msgNotFoundP1
  else if containsStr "429" msg || containsStr "RESOURCE_EXHAUSTED" msg then
    msgQuotaP1
  else msg

/-- The part_001 `generateImageWithText` pipeline: backend call plus
normalizer inside `try`, and the catch block classifying whatever was
thrown.  `outcome` is the backend call result. -/
def p1GenerateImageWithText (outcome : Except String GenResponse) :
    Except String String :=
  match outcome with
  | .error e => .error (p1ClassifyError e)
  | .ok r =>
    match extractImageFromCandidate r with
    | .ok d => .ok d
    | .error e => .error (p1ClassifyError e)

/-! ## Retry machinery -/

/-- Embedding of `withRetry` (`src/unnamed/part_001` lines 151-165).  The
backend operation is a function from the invocation index to the outcome of
that invocation.  The result carries the invocation indices performed (in
order) and the delays awaited via `wait`; on a quota error with retries
left the source waits `delayMs` and recurses with `retries - 1` and
`delayMs + 5000`. -/
def withRetryT {α : Type} (op : Nat → Except String α) :
    Nat → Nat → Nat → Except String α × List Nat × List Nat
  | retries, delayMs, idx =>
    match op idx with
    | .ok a => (.ok a, [idx], [])
    | .error e =>
      if isQuotaErrorRetry e then
        match retries with
        | 0 => (.error e, [idx], [])
        | r + 1 =>
          let out := withRetryT op r (delayMs + 5000) (idx + 1)
          (out.1, idx :: out.2.1, delayMs :: out.2.2)
      else (.error e, [idx], [])

/-- Embedding of the `while (true)` retry loop of the flash-image
`generateImageWithText` (`src/services/geminiService.ts` lines 27-88).
`attempts` is the counter value before the iteration starts, so the
iteration runs attempt number `attempts + 1`; `call a` is the combined
outcome of the backend call plus inline extraction at attempt `a` (anything
thrown inside `try`); `jitter a` is the random jitter added to the
deterministic backoff at attempt `a`.  Returns the result, the attempt
numbers performed, and the delays awaited. -/
def flashLoop (call : Nat → Except String String) (jitter : Nat → Nat)
    (maxAttempts : Nat) (attempts : Nat) :
    Except String String × List Nat × List Nat :=
  match call (attempts + 1) with
  | .ok img => (.ok img, [attempts + 1], [])
  | .error e =>
    if h : isQuotaErrorFlash e = true ∧ attempts + 1 < maxAttempts then
      let out := flashLoop call jitter maxAttempts (attempts + 1)
      (out.1, (attempts + 1) :: out.2.1,
        (min 10000 (2 ^ (attempts + 1) * 1000) + jitter (attempts + 1)) :: out.2.2)
    else (.error (flashClassifyError e), [attempts + 1], [])
termination_by maxAttempts - attempts
decreasing_by
  have := h.2
  omega

/-! ## Credential check -/

/-- JavaScript truthiness of `process.env.API_KEY`. -/
def apiKeyTruthy : Option String → Bool
  | some s => s != ""
  | none => false

def msgApiKey : String := "API_KEY environment variable not set"

/-- Module-level credential check of part_001 and part_002 (lines 3-5):
module evaluation fails before any function exists when the key is
absent. -/
def moduleInitP1 (apiKey : Option String) : Except String Unit :=
  if apiKeyTruthy apiKey then .ok () else .error msgApiKey

/-- The flash-image `generateImageWithText` of `src/services/geminiService.ts`
(lines 10-89): the credential is checked inside the function on every call,
before the retry loop (`maxAttempts = 5`). -/
def flashGenerateImageWithText (apiKey : Option String)
    (call : Nat → Except String String) (jitter : Nat → Nat) :
    Except String String × List Nat × List Nat :=
  if apiKeyTruthy apiKey then flashLoop call jitter 5 0
  else (.error msgApiKey, [], [])

/-! ## Describe-then-synthesize flow -/

/-- The operation body handed to `withRetry` by the describe-then-synthesize
`generateImageWithReference` (geminiService lines 308-350, part_001 lines
213-264): run the description step of run `idx`; on success feed its
description to the synthesis step. -/
def refFlowOp (describe : Nat → Except String String)
    (synth : String → Except String String) (idx : Nat) :
    Except String String :=
  match describe idx with
  | .error e => .error e
  | .ok d => synth d

/-- The descriptions actually fed to the synthesis step over a list of
performed runs: exactly the runs whose description step succeeded, with the
description produced in that run. -/
def synthInputs (describe : Nat → Except String String) (runs : List Nat) :
    List String :=
  runs.filterMap (fun i => (describe i).toOption)

/-! ## Vision model fallback selector -/

/-- Aggregate failure message of `describeImageWithFallback` (geminiService
line 297); a null last error renders as `undefined` in the template
literal. -/
def aggFallbackMsg (lastError : Option String) : String :=
  "Não foi possível ler a imagem. Detalhe do último erro: "
    ++ (match lastError with | some m => m | none => "undefined")

/-- Embedding of the candidate loop of `describeImageWithFallback`
(`src/services/geminiService.ts` lines 270-298).  `callModel m` is the
outcome of calling model `m`: an exception, or the (possibly missing)
extracted text.  Returns the result, the models invoked in order, and the
delays awaited — the loop body contains no `wait` call, so no delay is ever
recorded. -/
def describeFallbackLoop (callModel : String → Except String (Option String)) :
    List String → Option String → Except String String × List String × List Nat
  | [], lastError => (.error (aggFallbackMsg lastError), [], [])
  | m :: rest, lastError =>
    match callModel m with
    | .error e =>
      let out := describeFallbackLoop callModel rest (some e)
      (out.1, m :: out.2.1, out.2.2)
    | .ok ot =>
      match ot with
      | some t =>
        if t != "" then (.ok t, [m], [])
        else
          let out := describeFallbackLoop callModel rest lastError
          (out.1, m :: out.2.1, out.2.2)
      | none =>
        let out := describeFallbackLoop callModel rest lastError
        (out.1, m :: out.2.1, out.2.2)

/-- The prioritized vision model list of `describeImageWithFallback`
(geminiService lines 257-266). -/
def visionModels : List String :=
  ["gemini-1.5-flash", "gemini-1.5-flash-001", "gemini-1.5-flash-002",
   "gemini-1.5-flash-8b", "gemini-1.5-pro", "gemini-1.5-pro-001",
   "gemini-1.5-pro-002", "gemini-pro-vision"]

def describeImageWithFallback
    (callModel : String → Except String (Option String)) :
    Except String String × List String × List Nat :=
  describeFallbackLoop callModel visionModels none

/-! ## Reference-edit request construction and its call sites -/

structure RefImage where
  data : String
  mimeType : String
deriving DecidableEq, Repr

inductive ReqPart where
  | inlinePart (data mimeType : String)
  | textPart (text : String)
deriving DecidableEq, Repr

/-- Models `dataUrl.split(',')[1]` from the app component. -/
def getBase64FromDataUrl (dataUrl : String) : String :=
  (dataUrl.splitOn ",").getD 1 ""

/-- The `images` argument passed to `generateImageWithReference` by
`handleGenerateClick` (part_000 lines 172-189), as a function of the
relevant UI state: `some imgs` when one of the two reference call sites
fires with argument `imgs`, `none` when the text-to-image path is taken.
The editing branch starts from the current generated image and appends the
uploaded reference when present; the fresh branch passes the single
uploaded reference. -/
def imagesForApiCall (generatedImage : Option String)
    (referenceImage : Option RefImage) : Option (List RefImage) :=
  match generatedImage with
  | some g =>
    some ({ data := getBase64FromDataUrl g, mimeType := "image/png" }
      :: (match referenceImage with | some r2 => [r2] | none => []))
  | none =>
    match referenceImage with
    | some r2 => some [r2]
    | none => none

/-- The request parts built by the flash `generateImageWithReference`
(geminiService lines 121-135, part_002 lines 126-140): one inline part per
reference image, followed by the composed editing prompt. -/
def buildRefRequestParts (images : List RefImage) (editingPrompt : String) :
    List ReqPart :=
  images.map (fun im => ReqPart.inlinePart im.data im.mimeType)
    ++ [ReqPart.textPart editingPrompt]

def countInlineParts (ps : List ReqPart) : Nat :=
  (ps.filter (fun p => match p with
    | ReqPart.inlinePart _ _ => true
    | ReqPart.textPart _ => false)).length

/-! ## Claims C1, C5, C10: retry behavior -/

theorem withRetryT_error_unfold {α : Type} (op : Nat → Except String α)
    (retries delayMs idx : Nat) (e : String) (h : op idx = .error e) :
    withRetryT op retries delayMs idx
      = if isQuotaErrorRetry e then
          match retries with
          | 0 => (.error e, [idx], [])
          | r + 1 =>
            let out := withRetryT op r (delayMs + 5000) (idx + 1)
            (out.1, idx :: out.2.1, delayMs :: out.2.2)
        else (.error e, [idx], []) := by
  rw [withRetryT, h]

theorem withRetryT_step_ok {α : Type} (op : Nat → Except String α)
    (retries delayMs idx : Nat) (a : α) (h : op idx = .ok a) :
    withRetryT op retries delayMs idx = (.ok a, [idx], []) := by
  rw [withRetryT, h]

theorem withRetryT_step_error_retry {α : Type} (op : Nat → Except String α)
    (r delayMs idx : Nat) (e : String) (h : op idx = .error e)
    (hq : isQuotaErrorRetry e = true) :
    withRetryT op (r + 1) delayMs idx
      = ((withRetryT op r (delayMs + 5000) (idx + 1)).1,
         idx :: (withRetryT op r (delayMs + 5000) (idx + 1)).2.1,
         delayMs :: (withRetryT op r (delayMs + 5000) (idx + 1)).2.2) := by
  rw [withRetryT_error_unfold op (r + 1) delayMs idx e h, if_pos hq]

theorem withRetryT_step_error_stop {α : Type} (op : Nat → Except String α)
    (retries delayMs idx : Nat) (e : String) (h : op idx = .error e)
    (hq : isQuotaErrorRetry e = false) :
    withRetryT op retries delayMs idx = (.error e, [idx], []) := by
  rw [withRetryT_error_unfold op retries delayMs idx e h]
  simp [hq]

theorem withRetryT_step_error_zero {α : Type} (op : Nat → Except String α)
    (delayMs idx : Nat) (e : String) (h : op idx = .error e) :
    withRetryT op 0 delayMs idx = (.error e, [idx], []) := by
  rw [withRetryT_error_unfold op 0 delayMs idx e h]
  simp

theorem withRetryT_allQuota {α : Type} (op : Nat → Except String α) (e : String)
    (hall : ∀ i, op i = .error e) (hq : isQuotaErrorRetry e = true) :
    ∀ retries delayMs idx,
      (withRetryT op retries delayMs idx).1 = .error e
      ∧ (withRetryT op retries delayMs idx).2.1.length = retries + 1 := by
  intro retries
  induction retries with
  | zero =>
    intro delayMs idx
    rw [withRetryT_step_error_zero op delayMs idx e (hall idx)]
    exact ⟨rfl, rfl⟩
  | succ r ih =>
    intro delayMs idx
    have hrec := ih (delayMs + 5000) (idx + 1)
    rw [withRetryT_step_error_retry op r delayMs idx e (hall idx) hq]
    refine ⟨hrec.1, ?_⟩
    show ((withRetryT op r (delayMs + 5000) (idx + 1)).2.1.length) + 1 = r + 1 + 1
    rw [hrec.2]

theorem flashLoop_error_unfold (call : Nat → Except String String)
    (jitter : Nat → Nat) (maxAttempts attempts : Nat) (e : String)
    (h : call (attempts + 1) = .error e) :
    flashLoop call jitter maxAttempts attempts
      = if _h : isQuotaErrorFlash e = true ∧ attempts + 1 < maxAttempts then
          let out := flashLoop call jitter maxAttempts (attempts + 1)
          (out.1, (attempts + 1) :: out.2.1,
            (min 10000 (2 ^ (attempts + 1) * 1000) + jitter (attempts + 1)) :: out.2.2)
        else (.error (flashClassifyError e), [attempts + 1], []) := by
  rw [flashLoop, h]

theorem flashLoop_step_ok (call : Nat → Except String String)
    (jitter : Nat → Nat) (maxAttempts attempts : Nat) (img : String)
    (h : call (attempts + 1) = .ok img) :
    flashLoop call jitter maxAttempts attempts = (.ok img, [attempts + 1], []) := by
  rw [flashLoop, h]

theorem flashLoop_allQuota (call : Nat → Except String String) (jitter : Nat → Nat)
    (e : String) (hall : ∀ i, call i = .error e)
    (hq : isQuotaErrorFlash e = true) (maxAttempts : Nat) :
    ∀ k attempts, maxAttempts - attempts = k → attempts < maxAttempts →
      (flashLoop call jitter maxAttempts attempts).1 = .error msgQuotaFinalFlash
      ∧ (flashLoop call jitter maxAttempts attempts).2.1.length
          = maxAttempts - attempts := by
  intro k
  induction k with
  | zero => intro attempts hk hlt; omega
  | succ n ih =>
    intro attempts hk hlt
    by_cases hnext : attempts + 1 < maxAttempts
    · have hrec := ih (attempts + 1) (by omega) hnext
      rw [flashLoop_error_unfold call jitter maxAttempts attempts e (hall _),
        dif_pos (⟨hq, hnext⟩ : isQuotaErrorFlash e = true ∧ attempts + 1 < maxAttempts)]
      refine ⟨hrec.1, ?_⟩
      show ((attempts + 1) :: (flashLoop call jitter maxAttempts (attempts + 1)).2.1).length
          = maxAttempts - attempts
      rw [List.length_cons, hrec.2]
      omega
    · rw [flashLoop_error_unfold call jitter maxAttempts attempts e (hall _),
        dif_neg (fun hand => hnext hand.2)]
      refine ⟨?_, ?_⟩
      · show Except.error (flashClassifyError e) = .error msgQuotaFinalFlash
        simp [flashClassifyError, hq]
      · show [attempts + 1].length = maxAttempts - attempts
        simp
        omega

/-- C1: when every invocation of the backend operation raises a quota error,
the flash `while (true)` loop performs exactly `maxAttempts` invocations and
terminates with the terminal quota message, and the recursive `withRetry`
wrapper performs exactly `retries + 1` invocations (its configured bound on
attempts) and terminates by rethrowing the quota error; neither loops
forever (both are total functions with a finite invocation trace). -/
theorem c1_retry_bound_termination :
    (∀ (call : Nat → Except String String) (jitter : Nat → Nat) (e : String)
        (maxAttempts : Nat), 0 < maxAttempts →
        (∀ i, call i = .error e) → isQuotaErrorFlash e = true →
        (flashLoop call jitter maxAttempts 0).1 = .error msgQuotaFinalFlash
        ∧ (flashLoop call jitter maxAttempts 0).2.1.length = maxAttempts)
    ∧ (∀ (α : Type) (op : Nat → Except String α) (e : String) (retries delayMs : Nat),
        (∀ i, op i = .error e) → isQuotaErrorRetry e = true →
        (withRetryT op retries delayMs 0).1 = .error e
        ∧ (withRetryT op retries delayMs 0).2.1.length = retries + 1) := by
  constructor
  · intro call jitter e maxAttempts hm hall hq
    have := flashLoop_allQuota call jitter e hall hq maxAttempts maxAttempts 0 (by omega) hm
    simpa using this
  · intro α op e retries delayMs hall hq
    exact withRetryT_allQuota op e hall hq retries delayMs 0

/-- C1 witness: three attempts of the flash loop with `maxAttempts = 3`, and
the `withRetry` wrapper with `retries = 2` (three invocations), all raising
`429`. -/
theorem c1_witness :
    (0 < 3 ∧ isQuotaErrorFlash "429" = true ∧ isQuotaErrorRetry "429" = true)
    ∧ ((flashLoop (fun _ => .error "429") (fun _ => 0) 3 0).1
          = .error msgQuotaFinalFlash
      ∧ (flashLoop (fun _ => .error "429") (fun _ => 0) 3 0).2.1.length = 3)
    ∧ ((withRetryT (fun _ => (.error "429" : Except String String)) 2 60000 0).1
          = .error "429"
      ∧ (withRetryT (fun _ => (.error "429" : Except String String)) 2 60000 0).2.1.length
          = 2 + 1) :=
  ⟨⟨by decide, by decide, by decide⟩,
    c1_retry_bound_termination.1 (fun _ => .error "429") (fun _ => 0) "429" 3
      (by decide) (fun _ => rfl) (by decide),
    c1_retry_bound_termination.2 String (fun _ => .error "429") "429" 2 60000
      (fun _ => rfl) (by decide)⟩

/-- C5: in the describe-then-synthesize flow wrapped in `withRetry`, a quota
failure of the description step in run 0 restarts the whole two-step
operation; in the succeeding run 1 the synthesis step runs exactly once and
consumes the description produced in that same run. -/
theorem c5_restart_whole_operation :
    ∀ (describe : Nat → Except String String)
      (synth : String → Except String String)
      (qe d img : String) (retries delayMs : Nat),
      describe 0 = .error qe → isQuotaErrorRetry qe = true →
      describe 1 = .ok d → synth d = .ok img → 1 ≤ retries →
      withRetryT (refFlowOp describe synth) retries delayMs 0
          = (synth d, [0, 1], [delayMs])
      ∧ synthInputs describe [0, 1] = [d] := by
  intro describe synth qe d img retries delayMs h0 hq h1 hs hr
  obtain ⟨r, rfl⟩ : ∃ r, retries = r + 1 := ⟨retries - 1, by omega⟩
  have s0 : refFlowOp describe synth 0 = .error qe := by
    rw [refFlowOp, h0]
  have s1 : refFlowOp describe synth 1 = .ok img := by
    rw [refFlowOp, h1]
    exact hs
  constructor
  · rw [withRetryT_step_error_retry _ r delayMs 0 qe s0 hq,
      withRetryT_step_ok _ r (delayMs + 5000) 1 img s1, hs]
  · simp [synthInputs, h0, h1, Except.toOption]

/-- C5 witness: description fails with `429` in run 0 and succeeds in run 1;
the synthesis consumes exactly the run-1 description. -/
theorem c5_witness :
    withRetryT
        (refFlowOp (fun i => if i = 0 then Except.error "429" else Except.ok "a fox")
          (fun _ => Except.ok "IMG")) 3 10000 0
      = (Except.ok "IMG", [0, 1], [10000])
    ∧ synthInputs (fun i => if i = 0 then Except.error "429" else Except.ok "a fox")
        [0, 1] = ["a fox"] :=
  c5_restart_whole_operation
    (fun i => if i = 0 then Except.error "429" else Except.ok "a fox")
    (fun _ => Except.ok "IMG") "429" "a fox" "IMG" 3 10000
    rfl (by decide) rfl rfl (by omega)

/-- C10: a backend error is retried exactly when its message contains one of
the substrings `429`, `RESOURCE_EXHAUSTED`, or `quota` (the `withRetry`
variant matches `Quota` with a capital Q); an error containing none of the
variant's substrings is terminal on its very first occurrence, with a
single invocation and an empty delay trace. -/
theorem c10_quota_substring_classification :
    (∀ msg, isQuotaErrorFlash msg
        = (containsStr "429" msg || containsStr "RESOURCE_EXHAUSTED" msg
            || containsStr "quota" msg))
    ∧ (∀ msg, isQuotaErrorRetry msg
        = (containsStr "429" msg || containsStr "RESOURCE_EXHAUSTED" msg
            || containsStr "Quota" msg))
    ∧ (∀ (call : Nat → Except String String) (jitter : Nat → Nat) (e : String)
        (maxAttempts : Nat), call 1 = .error e → isQuotaErrorFlash e = false →
        flashLoop call jitter maxAttempts 0
          = (.error (flashClassifyError e), [1], []))
    ∧ (∀ (α : Type) (op : Nat → Except String α) (e : String)
        (retries delayMs : Nat),
        op 0 = .error e → isQuotaErrorRetry e = false →
        withRetryT op retries delayMs 0 = (.error e, [0], [])) := by
  refine ⟨fun _ => rfl, fun _ => rfl, ?_, ?_⟩
  · intro call jitter e maxAttempts hc hfq
    rw [flashLoop_error_unfold call jitter maxAttempts 0 e hc,
      dif_neg (fun hand => Bool.false_ne_true (hfq ▸ hand.1))]
  · intro α op e retries delayMs hop hfq
    exact withRetryT_step_error_stop op retries delayMs 0 e hop hfq

/-- C10 witness: an error mentioning none of the quota substrings is
terminal on the first invocation in both retry loops, with no delay. -/
theorem c10_witness :
    (isQuotaErrorFlash "Erro interno" = false
      ∧ isQuotaErrorRetry "Erro interno" = false)
    ∧ flashLoop (fun _ => .error "Erro interno") (fun _ => 0) 5 0
        = (.error (flashClassifyError "Erro interno"), [1], [])
    ∧ withRetryT (fun _ => (.error "Erro interno" : Except String String)) 3 10000 0
        = (.error "Erro interno", [0], []) :=
  ⟨⟨by decide, by decide⟩,
    c10_quota_substring_classification.2.2.1 (fun _ => .error "Erro interno")
      (fun _ => 0) "Erro interno" 5 rfl (by decide),
    c10_quota_substring_classification.2.2.2 String
      (fun _ => .error "Erro interno") "Erro interno" 3 10000 rfl (by decide)⟩

/-! ## Claim C4: error re-classification at the public boundary -/

/-- C4 counterexample: the `generateImageWithText` catch block of
`src/unnamed/part_001` rethrows any error outside the not-found and quota
families unmodified, so a raw backend error message crosses the public
boundary as-is (and it is none of the classified messages). -/
theorem c4_counterexample :
    p1GenerateImageWithText (.error "Erro interno do servidor")
        = .error "Erro interno do servidor"
    ∧ "Erro interno do servidor" ≠ msgNotFoundP1
    ∧ "Erro interno do servidor" ≠ msgQuotaP1 :=
  ⟨rfl, by decide, by decide⟩

/-- C4 (amended): the flash-image while-loop variant re-classifies every
surfaced error — the surfaced message is one of the fixed taxonomy messages
or the fixed wrapper prefix with the raw text embedded, and never equals the
raw message; the part_001 variant re-classifies only the not-found and
quota families and rethrows every other error unmodified. -/
theorem c4_error_reclassification_amended :
    (∀ msg, flashClassifyError msg ≠ msg)
    ∧ (∀ msg, flashClassifyError msg = msgQuotaFinalFlash
        ∨ flashClassifyError msg = msgSafetyFlash
        ∨ flashClassifyError msg = "Falha ao gerar imagem: " ++ msg)
    ∧ (∀ msg, (containsStr "404" msg || containsStr "not found" msg) = true →
        p1ClassifyError msg = msgNotFoundP1)
    ∧ (∀ msg, (containsStr "404" msg || containsStr "not found" msg) = false →
        (containsStr "429" msg || containsStr "RESOURCE_EXHAUSTED" msg) = true →
        p1ClassifyError msg = msgQuotaP1)
    ∧ (∀ msg, (containsStr "404" msg || containsStr "not found" msg) = false →
        (containsStr "429" msg || containsStr "RESOURCE_EXHAUSTED" msg) = false →
        p1ClassifyError msg = msg) := by
  refine ⟨?_, ?_, ?_, ?_, ?_⟩
  · intro msg
    rw [flashClassifyError]
    split_ifs with h1 h2
    · intro heq
      rw [← heq] at h1
      revert h1
      decide
    · intro heq
      rw [← heq] at h2
      revert h2
      decide
    · intro heq
      have hlen := congrArg String.length heq
      rw [String.length_append] at hlen
      have : ("Falha ao gerar imagem: " : String).length = 23 := rfl
      omega
  · intro msg
    rw [flashClassifyError]
    split_ifs with h1 h2
    · exact Or.inl rfl
    · exact Or.inr (Or.inl rfl)
    · exact Or.inr (Or.inr rfl)
  · intro msg h
    rw [p1ClassifyError, if_pos h]
  · intro msg h1 h2
    rw [p1ClassifyError, if_neg (by simp [h1]), if_pos h2]
  · intro msg h1 h2
    rw [p1ClassifyError, if_neg (by simp [h1]), if_neg (by simp [h2])]

/-- C4 witness: the amended classification evaluated on concrete
messages. -/
theorem c4_amended_witness :
    flashClassifyError "429 quota atingida" ≠ "429 quota atingida"
    ∧ p1ClassifyError "requested model not found" = msgNotFoundP1
    ∧ ((containsStr "404" "boom" || containsStr "not found" "boom") = false
      ∧ (containsStr "429" "boom" || containsStr "RESOURCE_EXHAUSTED" "boom") = false
      ∧ p1ClassifyError "boom" = "boom") :=
  ⟨c4_error_reclassification_amended.1 "429 quota atingida",
    c4_error_reclassification_amended.2.2.1 "requested model not found" (by decide),
    by decide, by decide,
    c4_error_reclassification_amended.2.2.2.2 "boom" (by decide) (by decide)⟩

/-! ## Claim C6: vision model fallback order and delays -/

theorem describeFallbackLoop_no_delay
    (callModel : String → Except String (Option String)) :
    ∀ (ms : List String) (lastError : Option String),
      (describeFallbackLoop callModel ms lastError).2.2 = [] := by
  intro ms
  induction ms with
  | nil => intro lastError; rfl
  | cons m rest ih =>
    intro lastError
    cases hm : callModel m with
    | error e => simp [describeFallbackLoop, hm, ih]
    | ok ot =>
      cases ot with
      | some t =>
        by_cases ht : (t != "") = true
        · simp [describeFallbackLoop, hm, ht]
        · rw [Bool.not_eq_true] at ht
          simp [describeFallbackLoop, hm, ht, ih]
      | none => simp [describeFallbackLoop, hm, ih]

/-- C6: the candidate loop of `describeImageWithFallback` invokes candidates
strictly in list order; a candidate failing with a not-found error is
skipped immediately, so with candidates `[A (fails: not found), B
(succeeds)]` the loop returns the text produced by B, having invoked exactly
A then B, with an empty delay trace; moreover no run of the fallback
selector over the configured model list ever awaits a delay. -/
theorem c6_fallback_order_no_delay :
    (∀ (callModel : String → Except String (Option String)) (a b e t : String),
      callModel a = .error e → containsStr "not found" e = true →
      callModel b = .ok (some t) → (t != "") = true →
      describeFallbackLoop callModel [a, b] none = (.ok t, [a, b], []))
    ∧ (∀ callModel, (describeImageWithFallback callModel).2.2 = []) := by
  constructor
  · intro callModel a b e t ha hnf hb ht
    simp [describeFallbackLoop, ha, hb, ht]
  · intro callModel
    exact describeFallbackLoop_no_delay callModel visionModels none

/-- C6 witness: model A fails with a not-found error, model B succeeds; the
result is B's text, the invocation order is `[A, B]`, and no delay is
recorded. -/
theorem c6_witness :
    describeFallbackLoop
        (fun m => if m = "A" then Except.error "model A not found"
          else Except.ok (some "uma raposa"))
        ["A", "B"] none
      = (.ok "uma raposa", ["A", "B"], []) :=
  c6_fallback_order_no_delay.1
    (fun m => if m = "A" then Except.error "model A not found"
      else Except.ok (some "uma raposa"))
    "A" "B" "model A not found" "uma raposa" rfl (by decide) rfl (by decide)

/-! ## Claim C8: credential check timing -/

/-- C8 counterexample: in `src/services/geminiService.ts` (lines 14-16) the
credential check sits inside `generateImageWithText`, so with the key absent
the function is entered on every call and fails at call time with the
configuration error — it is a per-call error there, not one raised once at
module initialization. -/
theorem c8_counterexample :
    flashGenerateImageWithText none (fun _ => .ok "IMG") (fun _ => 0)
      = (.error msgApiKey, [], []) := rfl

/-- C8 (amended): in part_001/part_002 the credential check is a module
initialization check that fails before any function exists; in
`src/services/geminiService.ts` the check is per call: with the key absent
every call of the flash `generateImageWithText` fails immediately with the
configuration error and performs no backend invocation, and with the key
present it proceeds to the retry loop. -/
theorem c8_credential_check_amended :
    (∀ apiKey, apiKeyTruthy apiKey = false →
      moduleInitP1 apiKey = .error msgApiKey)
    ∧ (∀ apiKey, apiKeyTruthy apiKey = true → moduleInitP1 apiKey = .ok ())
    ∧ (∀ apiKey call jitter, apiKeyTruthy apiKey = false →
      flashGenerateImageWithText apiKey call jitter = (.error msgApiKey, [], []))
    ∧ (∀ apiKey call jitter, apiKeyTruthy apiKey = true →
      flashGenerateImageWithText apiKey call jitter = flashLoop call jitter 5 0) := by
  refine ⟨?_, ?_, ?_, ?_⟩
  · intro apiKey hk
    rw [moduleInitP1, hk]
    rfl
  · intro apiKey hk
    rw [moduleInitP1, hk]
    rfl
  · intro apiKey call jitter hk
    rw [flashGenerateImageWithText, hk]
    rfl
  · intro apiKey call jitter hk
    rw [flashGenerateImageWithText, hk]
    rfl

/-- C8 witness: the amended statement at an absent key and at a present
key. -/
theorem c8_amended_witness :
    (apiKeyTruthy none = false ∧ moduleInitP1 none = .error msgApiKey)
    ∧ (apiKeyTruthy (some "k") = true
      ∧ flashGenerateImageWithText (some "k") (fun _ => Except.ok "IMG") (fun _ => 0)
          = flashLoop (fun _ => Except.ok "IMG") (fun _ => 0) 5 0) :=
  ⟨⟨rfl, c8_credential_check_amended.1 none rfl⟩,
    ⟨by decide,
      c8_credential_check_amended.2.2.2 (some "k") (fun _ => Except.ok "IMG")
        (fun _ => 0) (by decide)⟩⟩

/-! ## Claim C9: reference edits carry at least one image -/

/-- C9: each of the two reference call sites of `handleGenerateClick` passes
a non-empty images list, the request built from a list of images contains
exactly one inline part per image, and therefore every reference-edit
request sent from the UI contains at least one inline image part. -/
theorem c9_reference_images_nonempty :
    (∀ generatedImage referenceImage imgs,
      imagesForApiCall generatedImage referenceImage = some imgs →
      1 ≤ imgs.length)
    ∧ (∀ (imgs : List RefImage) (editingPrompt : String),
      countInlineParts (buildRefRequestParts imgs editingPrompt) = imgs.length)
    ∧ (∀ generatedImage referenceImage imgs editingPrompt,
      imagesForApiCall generatedImage referenceImage = some imgs →
      1 ≤ countInlineParts (buildRefRequestParts imgs editingPrompt)) := by
  have h1 : ∀ generatedImage referenceImage imgs,
      imagesForApiCall generatedImage referenceImage = some imgs →
      1 ≤ imgs.length := by
    intro g rI imgs h
    cases g with
    | some gv =>
      simp [imagesForApiCall] at h
      rw [← h]
      simp
    | none =>
      cases rI with
      | some rv =>
        simp [imagesForApiCall] at h
        rw [← h]
        simp
      | none => simp [imagesForApiCall] at h
  have h2 : ∀ (imgs : List RefImage) (editingPrompt : String),
      countInlineParts (buildRefRequestParts imgs editingPrompt) = imgs.length := by
    intro imgs editingPrompt
    induction imgs with
    | nil => rfl
    | cons im rest ih =>
      simp only [buildRefRequestParts, countInlineParts, List.map_cons,
        List.cons_append, List.filter_cons] at ih ⊢
      rw [if_pos trivial, List.length_cons, ih, List.length_cons]
  refine ⟨h1, h2, ?_⟩
  intro g rI imgs editingPrompt h
  rw [h2 imgs editingPrompt]
  exact h1 g rI imgs h

/-- C9 witness: the fresh-reference call site with one uploaded image yields
a one-element list and a request with one inline image part. -/
theorem c9_witness :
    imagesForApiCall none (some ⟨"refdata", "image/png"⟩)
        = some [⟨"refdata", "image/png"⟩]
    ∧ 1 ≤ countInlineParts
        (buildRefRequestParts [⟨"refdata", "image/png"⟩] "edit it") :=
  ⟨rfl, c9_reference_images_nonempty.2.2 none (some ⟨"refdata", "image/png"⟩)
    [⟨"refdata", "image/png"⟩] "edit it" rfl⟩

end ThumbPro
